import Mathlib

/-!
# ForwardTracking: segments and the no-zig-zag criterion

A shallow embedding of

* `include/FTrack/Segment.h` (class `FTrack::Segment`: edge lists, state vector), and
* `src/Criteria/Crit4_NoZigZag.cc` (`Crit4_NoZigZag::areCompatible`),

followed by the properties proved about them.

Modelling conventions.

* A `Segment*` is an address (`SegPtr`); the objects live in a `Heap`, a map from
  addresses to segment values.  A method that mutates `*this` is a function
  returning the new segment value.
* An `int` state slot is an integer; `++` at `INT_MAX` is signed overflow, undefined
  behaviour (`Outcome.undefined`).
* `Crit4_NoZigZag::areCompatible` is embedded twice.  `FloatArith.areCompatible`
  leaves every floating-point operation of the function uninterpreted
  (`FloatArith`), so that what is proved of it holds of the IEEE operations with their
  rounding and NaN; `FloatArith.Rounded` states what these operations do on numbers.
  `Crit4_NoZigZag.areCompatible` reads the operations as exact arithmetic in a
  linearly ordered field `K` with a floor function; it is the former at the
  interpretation `LibM.exact` (`exact_areCompatible`).  The library items `M_PI` and
  `atan2` are parameters (`LibM`); over the real numbers they are `Real.pi` and
  `fun y x => Complex.arg ⟨x, y⟩`.
* An unchecked `std::vector` access outside the vector is undefined behaviour and
  is a result of its own (`Outcome.undefined`), distinct from a thrown exception.
-/

set_option autoImplicit false

namespace FTrack

/-! ## Segment.h -/

/-- Address of a `Segment` object (a `Segment*`). -/
abbrev SegPtr := Nat

/-- How a call of a member function can end: with a value, with a thrown exception
(its message), or in undefined behaviour. -/
inductive Outcome (α : Type) where
  | value (v : α)
  | raised (what : String)
  | undefined
  deriving DecidableEq, Repr

/-- The largest value of an `int` (32 bits). -/
def INT_MAX : Int := 2147483647

/-- The data members of `class Segment` (Segment.h lines 80-89).  `H` is the type of
the hits the segment points to. -/
structure Segment (H : Type) where
  /-- `std::vector <Segment*> _children` -/
  _children : List SegPtr
  /-- `std::vector <Segment*> _parents` -/
  _parents : List SegPtr
  /-- `std::vector <AutHit*> _autHits` -/
  _autHits : List H
  /-- `std::vector<int> _state` -/
  _state : List Int
  /-- `unsigned _layer` -/
  _layer : Nat

namespace Segment

variable {H : Type}

/-- `getChildren() { return _children; }` -/
def getChildren (self : Segment H) : List SegPtr := self._children

/-- `getParents() { return _parents; }` -/
def getParents (self : Segment H) : List SegPtr := self._parents

/-- `getAutHits() { return _autHits; }` -/
def getAutHits (self : Segment H) : List H := self._autHits

/-- The hit list under the accessor name `getHits()` that the criteria call
(Crit4_NoZigZag.cc lines 30-37). -/
def getHits (self : Segment H) : List H := self._autHits

/-- `addChild( Segment* child ){ _children.push_back(child); }` -/
def addChild (self : Segment H) (child : SegPtr) : Segment H :=
  { self with _children := self._children ++ [child] }

/-- `addParent( Segment* parent ){ _parents.push_back(parent); }` -/
def addParent (self : Segment H) (parent : SegPtr) : Segment H :=
  { self with _parents := self._parents ++ [parent] }

/-- `getLayer() { return _layer; }` -/
def getLayer (self : Segment H) : Nat := self._layer

/-- `setLayer( unsigned layer ) { _layer = layer; }` -/
def setLayer (self : Segment H) (layer : Nat) : Segment H :=
  { self with _layer := layer }

/-- `getState() { return _state; }` -/
def getState (self : Segment H) : List Int := self._state

/-- `setState ( std::vector<int> state ) { _state = state; }` -/
def setState (self : Segment H) (state : List Int) : Segment H :=
  { self with _state := state }

/-- `raiseState() { if (_state.size() > 0) _state[0]++; }`: `++` on an `int` that
holds `INT_MAX` is signed overflow, undefined behaviour. -/
def raiseState (self : Segment H) : Outcome (Segment H) :=
  if h : self._state.length > 0 then
    if self._state[0] < INT_MAX then
      Outcome.value { self with _state := self._state.set 0 (self._state[0] + 1) }
    else Outcome.undefined
  else Outcome.value self

/-- `getInnerState() { return _state[0]; }`: `operator[]` is unchecked, so index 0 of
an empty vector is undefined behaviour; nothing is thrown. -/
def getInnerState (self : Segment H) : Outcome Int :=
  if h : 0 < self._state.length then Outcome.value self._state[0]
  else Outcome.undefined

/-- `getOuterState() { return _state.back(); }`: `back()` of an empty vector is
undefined behaviour; nothing is thrown. -/
def getOuterState (self : Segment H) : Outcome Int :=
  if h : self._state ≠ [] then Outcome.value (self._state.getLast h)
  else Outcome.undefined

end Segment

/-- The segment objects of one event, by address. -/
abbrev Heap (H : Type) := SegPtr → Segment H

namespace Heap

variable {H : Type}

/-- The call `self->addChild(child)` on the heap. -/
def addChild (h : Heap H) (self child : SegPtr) : Heap H :=
  Function.update h self ((h self).addChild child)

/-- The call `self->addParent(parent)` on the heap. -/
def addParent (h : Heap H) (self parent : SegPtr) : Heap H :=
  Function.update h self ((h self).addParent parent)

/-- Modelled from the spec: the Builder source is not among the files; by the spec
the Builder "always calls both sides together", here as `p->addChild(c)` followed by
`c->addParent(p)`. -/
def link (h : Heap H) (p c : SegPtr) : Heap H :=
  (h.addChild p c).addParent c p

/-- The same pair of calls in the other order: `c->addParent(p)`, then
`p->addChild(c)`. -/
def linkRev (h : Heap H) (p c : SegPtr) : Heap H :=
  (h.addParent c p).addChild p c

/-- The bidirectional edge invariant: `c` is among the children of `s` exactly when
`s` is among the parents of `c`. -/
def Bidirectional (h : Heap H) : Prop :=
  ∀ s c : SegPtr, c ∈ (h s).getChildren ↔ s ∈ (h c).getParents

end Heap

/-! ## Crit4_NoZigZag.cc in exact arithmetic -/

/-- What the criterion reads of a hit: `getX()`, `getY()`, `getZ()`. -/
structure IHit (K : Type) where
  x : K
  y : K
  z : K

/-- The numerical library items the criterion uses: the `<cmath>` constant `M_PI` and
the two-argument arc tangent `atan2 y x` that `TVector3::Phi` calls (as
`TMath::ATan2`). -/
structure LibM (K : Type) where
  M_PI : K
  atan2 : K → K → K

/-- ROOT `TVector3`: the three cartesian components. -/
structure TVector3 (K : Type) where
  fX : K
  fY : K
  fZ : K

/-- The exception `BadSegmentLength` with its message. -/
structure BadSegmentLength where
  what : String
  deriving DecidableEq, Repr

/-- `intToString`: the decimal digits of a size. -/
def intToString (n : Nat) : String := toString n

/-- The members of a `Crit4_NoZigZag` object: its two bounds and the members of the
criterion base class (`_name`, `_type`, `_saveValues`, `_map_name_value`). -/
structure Crit4_NoZigZag (K : Type) where
  _prodMin : K
  _prodMax : K
  _name : String
  _type : String
  _saveValues : Bool
  /-- `std::map < std::string , float >`: the value stored under a key, if any -/
  _map_name_value : String → Option K

section Criteria

variable {K : Type} [LinearOrderedField K] [FloorRing K]

/-- ROOT `TVector3::Phi()`: `fX == 0.0 && fY == 0.0 ? 0.0 : TMath::ATan2(fY,fX)`, the
azimuth of the vector in the xy plane. -/
def TVector3.Phi (m : LibM K) (v : TVector3 K) : K :=
  if v.fX = 0 ∧ v.fY = 0 then 0 else m.atan2 v.fY v.fX

/-- The constructor (Crit4_NoZigZag.cc lines 8-19); the map starts empty. -/
def Crit4_NoZigZag.new (prodMin prodMax : K) : Crit4_NoZigZag K :=
  { _prodMin := prodMin
    _prodMax := prodMax
    _name := "Crit4_NoZigZag"
    _type := "4Hit"
    _saveValues := false
    _map_name_value := fun _ => none }

/-- `Crit4_NoZigZag::areCompatible` (Crit4_NoZigZag.cc lines 23-104), statement by
statement, with the floating-point operations read as exact arithmetic.  The result
is what the call returns or throws, paired with the criterion object after the
call. -/
def Crit4_NoZigZag.areCompatible (m : LibM K) (self : Crit4_NoZigZag K)
    (parent child : Segment (IHit K)) :
    Except BadSegmentLength Bool × Crit4_NoZigZag K :=
  if h : parent.getHits.length = 3 ∧ child.getHits.length = 3 then
    have hp : parent.getHits.length = 3 := h.1
    have hc : child.getHits.length = 3 := h.2
    let a := parent.getHits[0]
    let b := parent.getHits[1]
    let c := parent.getHits[2]
    let d := child.getHits[2]
    let ax := a.x
    let ay := a.y
    let az := a.z
    let bx := b.x
    let by_ := b.y
    let bz := b.z
    let cx := c.x
    let cy := c.y
    let cz := c.z
    let dx := d.x
    let dy := d.y
    let dz := d.z
    let outerVec : TVector3 K := ⟨bx - ax, by_ - ay, bz - az⟩
    let middleVec : TVector3 K := ⟨cx - bx, cy - by_, cz - bz⟩
    let innerVec : TVector3 K := ⟨dx - cx, dy - cy, dz - cz⟩
    let angleXY1 := outerVec.Phi m - middleVec.Phi m
    let angleXY2 := middleVec.Phi m - innerVec.Phi m
    let angleXY1 := angleXY1 - 2 * m.M_PI * (⌊angleXY1 / 2 / m.M_PI⌋ : K)
    let angleXY1 := if angleXY1 > m.M_PI then angleXY1 - 2 * m.M_PI else angleXY1
    let angleXY2 := angleXY2 - 2 * m.M_PI * (⌊angleXY2 / 2 / m.M_PI⌋ : K)
    let angleXY2 := if angleXY2 > m.M_PI then angleXY2 - 2 * m.M_PI else angleXY2
    let angleXY1 := angleXY1 * (180 / m.M_PI)
    let angleXY2 := angleXY2 * (180 / m.M_PI)
    let prod := angleXY1 * angleXY2
    let self1 : Crit4_NoZigZag K :=
      if self._saveValues then
        { self with
          _map_name_value := Function.update self._map_name_value "Crit4_NoZigZag" (some prod) }
      else self
    if prod < self._prodMin then (Except.ok false, self1)
    else if prod > self._prodMax then (Except.ok false, self1)
    else (Except.ok true, self1)
  else
    (Except.error
      ⟨"Crit4_NoZigZag::This criterion needs 2 segments with 3 hits each, passed was a "
        ++ intToString parent.getHits.length ++ " hit segment (parent) and a "
        ++ intToString child.getHits.length ++ " hit segment (child)."⟩,
     self)

/-! ### Named parts of `areCompatible` -/

/-- Lines 67-68 and 70-71: bring an angle difference `t` to the range from 0 to
`2*M_PI`, then to the range from `-M_PI` to `M_PI`. -/
def normalizeAngle (m : LibM K) (t : K) : K :=
  let t1 := t - 2 * m.M_PI * (⌊t / 2 / m.M_PI⌋ : K)
  if t1 > m.M_PI then t1 - 2 * m.M_PI else t1

/-- The azimuth of the step from hit `p` to hit `q` (lines 57-59 with `Phi`). -/
def stepPhi (m : LibM K) (p q : IHit K) : K :=
  TVector3.Phi m ⟨q.x - p.x, q.y - p.y, q.z - p.z⟩

/-- The value of `angleXY1` at line 78: the normalized angle between the outer and
the middle step, in degrees. -/
def angleXY1 (m : LibM K) (a b c : IHit K) : K :=
  normalizeAngle m (stepPhi m a b - stepPhi m b c) * (180 / m.M_PI)

/-- The value of `angleXY2` at line 78: the normalized angle between the middle and
the inner step, in degrees. -/
def angleXY2 (m : LibM K) (b c d : IHit K) : K :=
  normalizeAngle m (stepPhi m b c - stepPhi m c d) * (180 / m.M_PI)

/-- The value of `prod` (line 78) for the chain `a`, `b`, `c`, `d`. -/
def prod (m : LibM K) (a b c d : IHit K) : K :=
  angleXY1 m a b c * angleXY2 m b c d

/-- Line 80: the criterion object after the optional recording of `value`. -/
def Crit4_NoZigZag.record (self : Crit4_NoZigZag K) (value : K) : Crit4_NoZigZag K :=
  if self._saveValues then
    { self with
      _map_name_value := Function.update self._map_name_value "Crit4_NoZigZag" (some value) }
  else self

end Criteria

/-! ## Crit4_NoZigZag.cc over floating-point operations

The same function once more, now with every floating-point operation it performs
left uninterpreted, so that what is proved holds for the IEEE operations of the
machine, with their rounding, infinities and NaN. -/

/-- The floating-point operations and constants of `areCompatible`.  `F` holds the
`float` and `double` values alike (a `float` is a `double`). -/
structure FloatArith (F : Type) where
  /-- `float - float` (lines 57-59) -/
  fsub : F → F → F
  /-- `double - double` -/
  sub : F → F → F
  /-- `double * double` -/
  mul : F → F → F
  /-- `double / double` -/
  div : F → F → F
  /-- `floor` of `<cmath>` -/
  floor : F → F
  /-- the conversion of a `double` to `float` (line 78) -/
  toFloat : F → F
  /-- `a < b`; `a > b` is `lt b a` -/
  lt : F → F → Bool
  /-- `a == b` -/
  eq : F → F → Bool
  /-- the literal `0.0` -/
  zero : F
  /-- the literals `2` and `2.` as `double` -/
  two : F
  /-- the literal `180.` -/
  c180 : F
  /-- the constant `M_PI` -/
  M_PI : F
  /-- `TMath::ATan2(y, x)` -/
  atan2 : F → F → F

namespace FloatArith

variable {F : Type}

/-- ROOT `TVector3::Phi()`: `fX == 0.0 && fY == 0.0 ? 0.0 : TMath::ATan2(fY,fX)`. -/
def Phi (A : FloatArith F) (v : TVector3 F) : F :=
  if (A.eq v.fX A.zero && A.eq v.fY A.zero) = true then A.zero else A.atan2 v.fY v.fX

/-- `Crit4_NoZigZag::areCompatible` (Crit4_NoZigZag.cc lines 23-104), statement by
statement, over the operations of `A`. -/
def areCompatible (A : FloatArith F) (self : Crit4_NoZigZag F)
    (parent child : Segment (IHit F)) :
    Except BadSegmentLength Bool × Crit4_NoZigZag F :=
  if h : parent.getHits.length = 3 ∧ child.getHits.length = 3 then
    have hp : parent.getHits.length = 3 := h.1
    have hc : child.getHits.length = 3 := h.2
    let a := parent.getHits[0]
    let b := parent.getHits[1]
    let c := parent.getHits[2]
    let d := child.getHits[2]
    let ax := a.x
    let ay := a.y
    let az := a.z
    let bx := b.x
    let by_ := b.y
    let bz := b.z
    let cx := c.x
    let cy := c.y
    let cz := c.z
    let dx := d.x
    let dy := d.y
    let dz := d.z
    let outerVec : TVector3 F := ⟨A.fsub bx ax, A.fsub by_ ay, A.fsub bz az⟩
    let middleVec : TVector3 F := ⟨A.fsub cx bx, A.fsub cy by_, A.fsub cz bz⟩
    let innerVec : TVector3 F := ⟨A.fsub dx cx, A.fsub dy cy, A.fsub dz cz⟩
    let angleXY1 := A.sub (A.Phi outerVec) (A.Phi middleVec)
    let angleXY2 := A.sub (A.Phi middleVec) (A.Phi innerVec)
    let angleXY1 := A.sub angleXY1
      (A.mul (A.mul A.two A.M_PI) (A.floor (A.div (A.div angleXY1 A.two) A.M_PI)))
    let angleXY1 :=
      if A.lt A.M_PI angleXY1 = true then A.sub angleXY1 (A.mul A.two A.M_PI) else angleXY1
    let angleXY2 := A.sub angleXY2
      (A.mul (A.mul A.two A.M_PI) (A.floor (A.div (A.div angleXY2 A.two) A.M_PI)))
    let angleXY2 :=
      if A.lt A.M_PI angleXY2 = true then A.sub angleXY2 (A.mul A.two A.M_PI) else angleXY2
    let angleXY1 := A.mul angleXY1 (A.div A.c180 A.M_PI)
    let angleXY2 := A.mul angleXY2 (A.div A.c180 A.M_PI)
    let prod := A.toFloat (A.mul angleXY1 angleXY2)
    let self1 : Crit4_NoZigZag F :=
      if self._saveValues then
        { self with
          _map_name_value := Function.update self._map_name_value "Crit4_NoZigZag" (some prod) }
      else self
    if A.lt prod self._prodMin = true then (Except.ok false, self1)
    else if A.lt self._prodMax prod = true then (Except.ok false, self1)
    else (Except.ok true, self1)
  else
    (Except.error
      ⟨"Crit4_NoZigZag::This criterion needs 2 segments with 3 hits each, passed was a "
        ++ intToString parent.getHits.length ++ " hit segment (parent) and a "
        ++ intToString child.getHits.length ++ " hit segment (child)."⟩,
     self)

/-! ### Named parts -/

/-- Lines 67-68 and 70-71 on an angle difference `t`. -/
def normalizeAngle (A : FloatArith F) (t : F) : F :=
  let t1 := A.sub t (A.mul (A.mul A.two A.M_PI) (A.floor (A.div (A.div t A.two) A.M_PI)))
  if A.lt A.M_PI t1 = true then A.sub t1 (A.mul A.two A.M_PI) else t1

/-- The azimuth of the step from hit `p` to hit `q` (lines 57-59 with `Phi`). -/
def stepPhi (A : FloatArith F) (p q : IHit F) : F :=
  A.Phi ⟨A.fsub q.x p.x, A.fsub q.y p.y, A.fsub q.z p.z⟩

/-- Lines 75-76: an angle in degrees. -/
def toDegrees (A : FloatArith F) (t : F) : F :=
  A.mul t (A.div A.c180 A.M_PI)

/-- The value of `angleXY1` at line 78. -/
def angleXY1 (A : FloatArith F) (a b c : IHit F) : F :=
  A.toDegrees (A.normalizeAngle (A.sub (A.stepPhi a b) (A.stepPhi b c)))

/-- The value of `angleXY2` at line 78. -/
def angleXY2 (A : FloatArith F) (b c d : IHit F) : F :=
  A.toDegrees (A.normalizeAngle (A.sub (A.stepPhi b c) (A.stepPhi c d)))

/-- The value of the `float` variable `prod` (line 78) for the chain `a`, `b`, `c`,
`d`. -/
def prod (A : FloatArith F) (a b c d : IHit F) : F :=
  A.toFloat (A.mul (A.angleXY1 a b c) (A.angleXY2 b c d))

/-- Line 80: the criterion object after the optional recording of `value`. -/
def record (self : Crit4_NoZigZag F) (value : F) : Crit4_NoZigZag F :=
  if self._saveValues then
    { self with
      _map_name_value := Function.update self._map_name_value "Crit4_NoZigZag" (some value) }
  else self

/-- The comparison `<` of `A` agrees with the order of the numbers that the values
stand for: `val a` is the number a value stands for, and there is none for a NaN. -/
def ComparesBy (A : FloatArith F) (val : F → Option ℚ) : Prop :=
  ∀ (a b : F) (x y : ℚ), val a = some x → val b = some y → A.lt a b = decide (x < y)

/-- What the operations of `A` do on values that stand for numbers, as IEEE 754
arithmetic in round-to-nearest does it within a range free of overflow.  `val a` is
the number that `a` stands for (none for a NaN or an infinity), `rep x` says that `x`
is the number of some `double`, `rd` rounds a number to a `double`, `rf` to a
`float`, and `P` is the number of `M_PI`. -/
structure Rounded {R : Type} [LinearOrderedField R] [FloorRing R] (A : FloatArith F)
    (val : F → Option R) (rd rf : R → R) (rep : R → Prop) (P : R) : Prop where
  pi_gt : 3 < P
  pi_lt : P < 4
  val_two : val A.two = some 2
  val_c180 : val A.c180 = some 180
  val_pi : val A.M_PI = some P
  val_rep : ∀ (a : F) (x : R), val a = some x → rep x
  val_sub : ∀ (a b : F) (x y : R), val a = some x → val b = some y → |x - y| ≤ 1048576 →
    val (A.sub a b) = some (rd (x - y))
  val_mul : ∀ (a b : F) (x y : R), val a = some x → val b = some y → |x * y| ≤ 1048576 →
    val (A.mul a b) = some (rd (x * y))
  val_div : ∀ (a b : F) (x y : R), val a = some x → val b = some y → y ≠ 0 →
    |x / y| ≤ 1048576 → val (A.div a b) = some (rd (x / y))
  val_floor : ∀ (a : F) (x : R), val a = some x → val (A.floor a) = some (⌊x⌋ : R)
  val_toFloat : ∀ (a : F) (x : R), val a = some x → |x| ≤ 1048576 →
    val (A.toFloat a) = some (rf x)
  lt_val : ∀ (a b : F) (x y : R), val a = some x → val b = some y →
    A.lt a b = decide (x < y)
  rd_mono : ∀ x y : R, x ≤ y → rd x ≤ rd y
  rd_neg : ∀ x : R, rd (-x) = -rd x
  rd_rep : ∀ x : R, rep x → rd x = x
  rep_rd : ∀ x : R, rep (rd x)
  rep_one : rep 1
  rep_half : rep (1 / 2)
  rep_half_pi : rep (P / 2)
  rep_two_pi : rep (2 * P)
  rep_32400 : rep 32400
  /-- Sterbenz: the difference of two nearby `double` numbers is computed exactly -/
  sterbenz : ∀ x y : R, rep x → rep y → y / 2 ≤ x → x ≤ 2 * y → rd (x - y) = x - y
  /-- `M_PI * (180. / M_PI)` is `180.` -/
  pi_degrees : rd (P * rd (180 / P)) = 180
  rf_mono : ∀ x y : R, x ≤ y → rf x ≤ rf y
  rf_neg : ∀ x : R, rf (-x) = -rf x
  rf_32400 : rf 32400 = 32400

end FloatArith

section Interpretations

variable {K : Type} [LinearOrderedField K] [FloorRing K]

/-- Exact arithmetic in an ordered field as the floating-point operations: nothing
is rounded and there is no NaN. -/
def LibM.exact (m : LibM K) : FloatArith K where
  fsub a b := a - b
  sub a b := a - b
  mul a b := a * b
  div a b := a / b
  floor a := (⌊a⌋ : K)
  toFloat a := a
  lt a b := decide (a < b)
  eq a b := decide (a = b)
  zero := 0
  two := 2
  c180 := 180
  M_PI := m.M_PI
  atan2 := m.atan2

/-- Exact arithmetic with a NaN, the value `none`: an operation with a NaN operand
gives NaN, as does a division by zero, and a comparison with a NaN is false. -/
def LibM.withNaN (m : LibM K) : FloatArith (Option K) where
  fsub a b := a.bind fun x => b.bind fun y => some (x - y)
  sub a b := a.bind fun x => b.bind fun y => some (x - y)
  mul a b := a.bind fun x => b.bind fun y => some (x * y)
  div a b := a.bind fun x => b.bind fun y => if y = 0 then none else some (x / y)
  floor a := a.bind fun x => some (⌊x⌋ : K)
  toFloat a := a
  lt a b := match a, b with
    | some x, some y => decide (x < y)
    | _, _ => false
  eq a b := match a, b with
    | some x, some y => decide (x = y)
    | _, _ => false
  zero := some 0
  two := some 2
  c180 := some 180
  M_PI := some m.M_PI
  atan2 a b := a.bind fun y => b.bind fun x => some (m.atan2 y x)

/-- The order `a <= b` of values with a NaN: it holds of no NaN. -/
def leNaN (a b : Option K) : Prop :=
  ∃ x y : K, a = some x ∧ b = some y ∧ x ≤ y

end Interpretations

/-! ## Lemmas -/

section FieldLemmas

variable {K : Type} [LinearOrderedField K]

/-- No NaN is below or above a number. -/
theorem not_leNaN_none (u v : Option K) : ¬ (leNaN u none ∧ leNaN none v) := by
  rintro ⟨⟨x, y, _, hy, _⟩, _⟩
  cases hy

end FieldLemmas

section CriteriaLemmas

variable {K : Type} [LinearOrderedField K] [FloorRing K]

/-- On two 3-hit segments the call tests `prod` of the chain against the bounds and
records it when asked to. -/
theorem areCompatible_three (m : LibM K) (self : Crit4_NoZigZag K)
    (parent child : Segment (IHit K)) (a b c e f d : IHit K)
    (hp : parent.getHits = [a, b, c]) (hc : child.getHits = [e, f, d]) :
    self.areCompatible m parent child =
      (Except.ok (decide (self._prodMin ≤ prod m a b c d ∧ prod m a b c d ≤ self._prodMax)),
        self.record (prod m a b c d)) := by
  have h : parent.getHits.length = 3 ∧ child.getHits.length = 3 := by simp [hp, hc]
  unfold Crit4_NoZigZag.areCompatible
  rw [dif_pos h]
  simp only [hp, hc, List.getElem_cons_zero, List.getElem_cons_succ]
  change (if prod m a b c d < self._prodMin then (Except.ok false, self.record (prod m a b c d))
    else if prod m a b c d > self._prodMax then (Except.ok false, self.record (prod m a b c d))
    else (Except.ok true, self.record (prod m a b c d))) = _
  by_cases h1 : prod m a b c d < self._prodMin
  · rw [if_pos h1]
    have h2 : ¬ (self._prodMin ≤ prod m a b c d) := not_le.mpr h1
    simp [h2]
  · rw [if_neg h1]
    by_cases h3 : prod m a b c d > self._prodMax
    · rw [if_pos h3]
      have h4 : ¬ (prod m a b c d ≤ self._prodMax) := not_le.mpr h3
      simp [h4]
    · rw [if_neg h3]
      simp [not_lt.mp h1, not_lt.mp h3]

/-- An angle difference of zero stays zero. -/
theorem normalizeAngle_zero (m : LibM K) (hpi : 0 < m.M_PI) : normalizeAngle m 0 = 0 := by
  unfold normalizeAngle
  simp only [zero_div, Int.floor_zero, Int.cast_zero, mul_zero, sub_zero]
  rw [if_neg (not_lt.mpr (le_of_lt hpi))]

/-- An angle difference already between `-M_PI` and `M_PI` is left as it is. -/
theorem normalizeAngle_of_mem (m : LibM K) (hpi : 0 < m.M_PI) (t : K)
    (h0 : -m.M_PI < t) (h1 : t ≤ m.M_PI) : normalizeAngle m t = t := by
  have hx : t / 2 / m.M_PI = t / (2 * m.M_PI) := by rw [div_div]
  have h2p : (0 : K) < 2 * m.M_PI := by positivity
  unfold normalizeAngle
  simp only
  by_cases ht : 0 ≤ t
  · have hf : ⌊t / 2 / m.M_PI⌋ = 0 := by
      rw [Int.floor_eq_iff, hx]
      constructor
      · simpa using div_nonneg ht (le_of_lt h2p)
      · rw [div_lt_iff₀ h2p]
        simp only [Int.cast_zero, zero_add, one_mul]
        linarith
    rw [hf, if_neg (by simpa using h1)]
    simp
  · have ht0 : t < 0 := not_le.mp ht
    have hf : ⌊t / 2 / m.M_PI⌋ = -1 := by
      rw [Int.floor_eq_iff, hx]
      constructor
      · rw [le_div_iff₀ h2p]
        push_cast
        linarith
      · rw [div_lt_iff₀ h2p]
        push_cast
        linarith
    rw [hf, if_pos (by push_cast; linarith)]
    push_cast
    ring

/-- What the call does on a pair that is not 3-hit/3-hit: it throws and leaves the
criterion object as it was. -/
theorem areCompatible_not_three (m : LibM K) (self : Crit4_NoZigZag K)
    (parent child : Segment (IHit K))
    (h : ¬ (parent.getHits.length = 3 ∧ child.getHits.length = 3)) :
    ∃ e : BadSegmentLength, self.areCompatible m parent child = (Except.error e, self) := by
  unfold Crit4_NoZigZag.areCompatible
  rw [dif_neg h]
  exact ⟨_, rfl⟩

/-- On a straight chain in equal steps both turning angles are zero. -/
theorem angles_of_equal_steps (m : LibM K) (hpi : 0 < m.M_PI) (p q r : IHit K)
    (h : stepPhi m p q = stepPhi m q r) : angleXY1 m p q r = 0 ∧ angleXY2 m p q r = 0 := by
  unfold angleXY1 angleXY2
  rw [h, sub_self, normalizeAngle_zero m hpi, zero_mul]
  exact ⟨rfl, rfl⟩

/-- The S-shape chain, given the three values of `atan2` that it meets: the first
turning angle is -45 degrees and the second is 90 degrees. -/
theorem sShape_angles (m : LibM K) (hpi : 0 < m.M_PI)
    (h0 : m.atan2 0 1 = 0) (h1 : m.atan2 1 1 = m.M_PI / 4)
    (h2 : m.atan2 (-1) 1 = -(m.M_PI / 4)) :
    angleXY1 m ⟨0, 0, 0⟩ ⟨1, 0, 0⟩ ⟨2, 1, 0⟩ = -45 ∧
    angleXY2 m ⟨1, 0, 0⟩ ⟨2, 1, 0⟩ ⟨3, 0, 0⟩ = 90 := by
  have hne : m.M_PI ≠ 0 := ne_of_gt hpi
  have e1 : stepPhi m ⟨0, 0, 0⟩ ⟨1, 0, 0⟩ = 0 := by
    simp [stepPhi, TVector3.Phi, h0]
  have e2 : stepPhi m ⟨1, 0, 0⟩ ⟨2, 1, 0⟩ = m.M_PI / 4 := by
    have : (2 : K) - 1 = 1 := by norm_num
    simp [stepPhi, TVector3.Phi, h1, this]
  have e3 : stepPhi m ⟨2, 1, 0⟩ ⟨3, 0, 0⟩ = -(m.M_PI / 4) := by
    have : (3 : K) - 2 = 1 := by norm_num
    simp [stepPhi, TVector3.Phi, h2, this]
  unfold angleXY1 angleXY2
  rw [e1, e2, e3]
  rw [normalizeAngle_of_mem m hpi (0 - m.M_PI / 4) (by linarith) (by linarith),
    normalizeAngle_of_mem m hpi (m.M_PI / 4 - -(m.M_PI / 4)) (by linarith) (by linarith)]
  constructor
  · field_simp
    ring
  · field_simp
    ring

/-- A list of three elements, spelled out. -/
theorem list_length_three {α : Type} (l : List α) (h : l.length = 3) :
    ∃ a b c : α, l = [a, b, c] := by
  match l, h with
  | [a, b, c], _ => exact ⟨a, b, c, rfl⟩

end CriteriaLemmas

/-! ### The call over floating-point operations -/

section FloatLemmas

variable {F : Type}

/-- On two 3-hit segments the call tests `prod` of the chain with the two
comparisons of lines 82-83 and records it when asked to. -/
theorem FloatArith.areCompatible_three_float (A : FloatArith F) (self : Crit4_NoZigZag F)
    (parent child : Segment (IHit F)) (a b c e f d : IHit F)
    (hp : parent.getHits = [a, b, c]) (hc : child.getHits = [e, f, d]) :
    A.areCompatible self parent child =
      (Except.ok (!(A.lt (A.prod a b c d) self._prodMin) &&
          !(A.lt self._prodMax (A.prod a b c d))),
        FloatArith.record self (A.prod a b c d)) := by
  have h : parent.getHits.length = 3 ∧ child.getHits.length = 3 := by simp [hp, hc]
  unfold FloatArith.areCompatible
  rw [dif_pos h]
  simp only [hp, hc, List.getElem_cons_zero, List.getElem_cons_succ]
  change (if A.lt (A.prod a b c d) self._prodMin = true then
      (Except.ok false, FloatArith.record self (A.prod a b c d))
    else if A.lt self._prodMax (A.prod a b c d) = true then
      (Except.ok false, FloatArith.record self (A.prod a b c d))
    else (Except.ok true, FloatArith.record self (A.prod a b c d))) = _
  cases h1 : A.lt (A.prod a b c d) self._prodMin <;>
    cases h2 : A.lt self._prodMax (A.prod a b c d) <;> simp

end FloatLemmas

section ExactLemmas

variable {K : Type} [LinearOrderedField K] [FloorRing K]

/-- With exact arithmetic for the operations, `Phi` is the `Phi` of the exact
embedding. -/
theorem exact_Phi (m : LibM K) (v : TVector3 K) : m.exact.Phi v = TVector3.Phi m v := by
  unfold FloatArith.Phi TVector3.Phi LibM.exact
  by_cases h1 : v.fX = 0 <;> by_cases h2 : v.fY = 0 <;> simp [h1, h2]

/-- With exact arithmetic for the operations, the normalization is the one of the
exact embedding. -/
theorem exact_normalizeAngle (m : LibM K) (t : K) :
    m.exact.normalizeAngle t = normalizeAngle m t := by
  unfold FloatArith.normalizeAngle normalizeAngle LibM.exact
  simp only [decide_eq_true_eq, gt_iff_lt]

/-- With exact arithmetic for the operations, `prod` is the `prod` of the exact
embedding. -/
theorem exact_prod (m : LibM K) (a b c d : IHit K) :
    m.exact.prod a b c d = prod m a b c d := by
  unfold FloatArith.prod FloatArith.angleXY1 FloatArith.angleXY2 FloatArith.toDegrees
    FloatArith.stepPhi prod angleXY1 angleXY2 stepPhi
  rw [exact_normalizeAngle, exact_normalizeAngle, exact_Phi, exact_Phi, exact_Phi]
  rfl

/-- With exact arithmetic for the operations, the call is the call of the exact
embedding. -/
theorem exact_areCompatible (m : LibM K) (self : Crit4_NoZigZag K)
    (parent child : Segment (IHit K)) :
    m.exact.areCompatible self parent child = self.areCompatible m parent child := by
  by_cases h : parent.getHits.length = 3 ∧ child.getHits.length = 3
  · obtain ⟨a, b, c, hp⟩ := list_length_three _ h.1
    obtain ⟨e, f, d, hc⟩ := list_length_three _ h.2
    rw [FloatArith.areCompatible_three_float _ self parent child a b c e f d hp hc,
      areCompatible_three m self parent child a b c e f d hp hc, exact_prod]
    have hb : (!(m.exact.lt (prod m a b c d) self._prodMin) &&
        !(m.exact.lt self._prodMax (prod m a b c d))) =
        decide (self._prodMin ≤ prod m a b c d ∧ prod m a b c d ≤ self._prodMax) := by
      by_cases h1 : prod m a b c d < self._prodMin <;>
        by_cases h2 : self._prodMax < prod m a b c d <;>
        simp [LibM.exact, h1, h2, not_le.mpr, not_lt.mp]
    rw [hb]
    rfl
  · unfold FloatArith.areCompatible Crit4_NoZigZag.areCompatible
    rw [dif_neg h, dif_neg h]

/-- In exact arithmetic with a NaN, a NaN azimuth of the inner step makes `prod` a
NaN. -/
theorem withNaN_prod_nan (m : LibM K) (a b c d : IHit (Option K))
    (h : m.withNaN.stepPhi c d = none) : m.withNaN.prod a b c d = none := by
  have h2 : m.withNaN.angleXY2 b c d = none := by
    unfold FloatArith.angleXY2
    rw [h]
    cases hb : m.withNaN.stepPhi b c <;> rfl
  unfold FloatArith.prod
  rw [h2]
  cases m.withNaN.angleXY1 a b c <;> rfl

/-- In exact arithmetic with a NaN, the step to a hit with the x coordinate NaN has a
NaN azimuth. -/
theorem withNaN_stepPhi_nan_x (m : LibM K) (c : IHit (Option K)) (dy dz : Option K) :
    m.withNaN.stepPhi c ⟨none, dy, dz⟩ = none := by
  unfold FloatArith.stepPhi FloatArith.Phi
  simp only [LibM.withNaN, Option.none_bind, Bool.false_and, Bool.false_eq_true, if_false]
  cases (dy.bind fun x => c.y.bind fun y => some (x - y)) <;> rfl

end ExactLemmas

/-! ### Rounded arithmetic -/

section RoundedLemmas

variable {F R : Type} [LinearOrderedField R] [FloorRing R] {A : FloatArith F}
  {val : F → Option R} {rd rf : R → R} {rep : R → Prop} {P : R}

/-- `M_PI` is positive. -/
theorem FloatArith.Rounded.pi_pos (hA : A.Rounded val rd rf rep P) : 0 < P := by
  linarith [hA.pi_gt]

end RoundedLemmas

/-! ### `atan2` over the real numbers -/

/-- The value `atan2(0, 1)`. -/
theorem arg_one_zero : Complex.arg ⟨1, 0⟩ = 0 := by
  rw [Complex.arg_eq_zero_iff]
  simp

/-- The value `atan2(1, 1)`. -/
theorem arg_one_one : Complex.arg ⟨1, 1⟩ = Real.pi / 4 := by
  have hmem : Real.pi / 4 ∈ Set.Ioc (-Real.pi) Real.pi := by
    constructor <;> linarith [Real.pi_pos]
  have hs : (0 : ℝ) < √2 := Real.sqrt_pos.mpr (by norm_num)
  have e : (⟨1, 1⟩ : ℂ) = ((√2 : ℝ) : ℂ) *
      (Complex.cos ((Real.pi / 4 : ℝ) : ℂ) +
        Complex.sin ((Real.pi / 4 : ℝ) : ℂ) * Complex.I) := by
    rw [← Complex.ofReal_cos, ← Complex.ofReal_sin, Real.cos_pi_div_four, Real.sin_pi_div_four]
    apply Complex.ext <;> simp <;> ring_nf <;> norm_num
  rw [e]
  exact Complex.arg_mul_cos_add_sin_mul_I hs hmem

/-- The value `atan2(-1, 1)`. -/
theorem arg_one_neg_one : Complex.arg ⟨1, -1⟩ = -(Real.pi / 4) := by
  have hmem : -(Real.pi / 4) ∈ Set.Ioc (-Real.pi) Real.pi := by
    constructor <;> linarith [Real.pi_pos]
  have hs : (0 : ℝ) < √2 := Real.sqrt_pos.mpr (by norm_num)
  have e : (⟨1, -1⟩ : ℂ) = ((√2 : ℝ) : ℂ) *
      (Complex.cos ((-(Real.pi / 4) : ℝ) : ℂ) +
        Complex.sin ((-(Real.pi / 4) : ℝ) : ℂ) * Complex.I) := by
    rw [← Complex.ofReal_cos, ← Complex.ofReal_sin, Real.cos_neg, Real.sin_neg,
      Real.cos_pi_div_four, Real.sin_pi_div_four]
    apply Complex.ext <;> simp <;> ring_nf <;> norm_num
  rw [e]
  exact Complex.arg_mul_cos_add_sin_mul_I hs hmem

section SegmentProperties

variable {H : Type}

/-- C5 (the code at the failing input): on a segment whose state vector is empty,
for instance right after `setState({})`, `getInnerState()` and `getOuterState()` end in
undefined behaviour and throw nothing, so no `EmptyState` failure is raised; on a
segment with a non-empty state vector they return the first and the last slot. -/
theorem getInnerState_getOuterState_unchecked (s : Segment H) :
    (s.setState []).getInnerState = Outcome.undefined ∧
    (s.setState []).getOuterState = Outcome.undefined ∧
    (∀ what : String, (s.setState []).getInnerState ≠ Outcome.raised what) ∧
    (∀ what : String, (s.setState []).getOuterState ≠ Outcome.raised what) ∧
    (∀ (x : Int) (xs : List Int),
      (s.setState (x :: xs)).getInnerState = Outcome.value x ∧
      (s.setState (x :: xs)).getOuterState =
        Outcome.value ((x :: xs).getLast (List.cons_ne_nil x xs))) := by
  refine ⟨rfl, rfl, ?_, ?_, ?_⟩
  · intro what h
    cases h
  · intro what h
    cases h
  · intro x xs
    constructor
    · simp [Segment.getInnerState, Segment.setState]
    · simp [Segment.getOuterState, Segment.setState]

/-- The invariant survives one `addChild`/`addParent` pair, in this order. -/
theorem bidirectional_link (h : Heap H) (p c : SegPtr) (hinv : h.Bidirectional) :
    (h.link p c).Bidirectional := by
  intro s q
  have hsq := hinv s q
  simp only [Heap.link, Heap.addChild, Heap.addParent, Segment.getChildren, Segment.getParents,
    Segment.addChild, Segment.addParent, Function.update_apply] at hsq ⊢
  by_cases h1 : s = c <;> by_cases h2 : s = p <;> by_cases h3 : q = c <;> by_cases h4 : q = p <;>
    simp_all

/-- The invariant survives one `addParent`/`addChild` pair, in this order. -/
theorem bidirectional_linkRev (h : Heap H) (p c : SegPtr) (hinv : h.Bidirectional) :
    (h.linkRev p c).Bidirectional := by
  intro s q
  have hsq := hinv s q
  simp only [Heap.linkRev, Heap.addChild, Heap.addParent, Segment.getChildren,
    Segment.getParents, Segment.addChild, Segment.addParent, Function.update_apply] at hsq ⊢
  by_cases h1 : s = c <;> by_cases h2 : s = p <;> by_cases h3 : q = c <;> by_cases h4 : q = p <;>
    simp_all

/-- C6: if `c` is a child of `s` exactly when `s` is a parent of `c` throughout the
heap, this still holds after `p->addChild(c)` together with `c->addParent(p)` (in
either order, also for `p = c`); `addChild` alone appends the one record `c` to
`_children` of `p` and `addParent` alone appends the one record `p` to `_parents` of
`c`, and neither changes another member of the receiver or any other segment. -/
theorem addChild_addParent_bidirectional (h : Heap H) (p c : SegPtr)
    (hinv : h.Bidirectional) :
    (h.link p c).Bidirectional ∧ (h.linkRev p c).Bidirectional ∧
    ((h.addChild p c p)._children = (h p)._children ++ [c] ∧
      (h.addChild p c p)._parents = (h p)._parents ∧
      (h.addChild p c p)._autHits = (h p)._autHits ∧
      (h.addChild p c p)._state = (h p)._state ∧
      (h.addChild p c p)._layer = (h p)._layer ∧
      ∀ q : SegPtr, q ≠ p → h.addChild p c q = h q) ∧
    ((h.addParent c p c)._parents = (h c)._parents ++ [p] ∧
      (h.addParent c p c)._children = (h c)._children ∧
      (h.addParent c p c)._autHits = (h c)._autHits ∧
      (h.addParent c p c)._state = (h c)._state ∧
      (h.addParent c p c)._layer = (h c)._layer ∧
      ∀ q : SegPtr, q ≠ c → h.addParent c p q = h q) := by
  refine ⟨bidirectional_link h p c hinv, bidirectional_linkRev h p c hinv, ?_, ?_⟩
  · simp only [Heap.addChild, Function.update_same, Segment.addChild, true_and]
    intro q hq
    exact Function.update_noteq hq _ _
  · simp only [Heap.addParent, Function.update_same, Segment.addParent, true_and]
    intro q hq
    exact Function.update_noteq hq _ _

/-- C6, at a heap of segments without edges: linking parent 1 to child 0. -/
theorem addChild_addParent_bidirectional_witness :
    (Heap.Bidirectional (fun _ => ⟨[], [], [()], [0], 0⟩ : Heap Unit)) ∧
    (Heap.link (fun _ => ⟨[], [], [()], [0], 0⟩ : Heap Unit) 1 0).Bidirectional ∧
    (Heap.link (fun _ => ⟨[], [], [()], [0], 0⟩ : Heap Unit) 1 0 1)._children = [0] ∧
    (Heap.link (fun _ => ⟨[], [], [()], [0], 0⟩ : Heap Unit) 1 0 0)._parents = [1] :=
  have hinv : Heap.Bidirectional (fun _ => ⟨[], [], [()], [0], 0⟩ : Heap Unit) := by
    intro s c
    simp [Segment.getChildren, Segment.getParents]
  ⟨hinv, (addChild_addParent_bidirectional _ 1 0 hinv).1, by decide, by decide⟩

/-- C7 (counterexample): a segment of one hit that is given a state vector of two
slots has, after `setState`, two state slots and one hit. -/
theorem setState_size_counterexample :
    ¬ (((⟨[], [], [()], [0], 0⟩ : Segment Unit).setState [0, 0]).getState.length =
        ((⟨[], [], [()], [0], 0⟩ : Segment Unit).setState [0, 0]).getAutHits.length) := by
  decide

/-- C7 (amended): after `setState(state)` the state vector is the vector passed and
the hits are the same, so the state has as many slots as the segment has hits exactly
when the vector passed has as many entries as the segment has hits. -/
theorem setState_size (s : Segment H) (state : List Int) :
    (s.setState state).getState = state ∧
    (s.setState state).getAutHits = s.getAutHits ∧
    ((s.setState state).getState.length = (s.setState state).getAutHits.length ↔
      state.length = s.getAutHits.length) := by
  refine ⟨rfl, rfl, ?_⟩
  simp [Segment.setState, Segment.getState, Segment.getAutHits]

/-- C8 (counterexample): on a segment whose innermost state slot holds `INT_MAX`,
`raiseState()` overflows the `int`: the call is undefined behaviour and does not end
with the slot raised by one. -/
theorem raiseState_overflow_counterexample :
    (⟨[], [], [()], [2147483647], 0⟩ : Segment Unit).raiseState = Outcome.undefined ∧
    ¬ ∃ s2 : Segment Unit,
      (⟨[], [], [()], [2147483647], 0⟩ : Segment Unit).raiseState = Outcome.value s2 ∧
      s2.getInnerState = Outcome.value (2147483647 + 1) := by
  have h : (⟨[], [], [()], [2147483647], 0⟩ : Segment Unit).raiseState = Outcome.undefined := by
    simp [Segment.raiseState, INT_MAX]
  refine ⟨h, ?_⟩
  rintro ⟨s2, h2, _⟩
  rw [h] at h2
  cases h2

/-- C8 (amended): on a segment whose innermost state slot, if there is one, is below
`INT_MAX`, `raiseState()` returns normally; with a state vector `x :: xs` the state
becomes `(x + 1) :: xs`, so the slot `getInnerState()` reads grows by exactly one and
every other slot and the length stay; the hits, the layer, the children and the
parents are untouched; with an empty state vector the segment is unchanged. -/
theorem raiseState_frame (s : Segment H)
    (hmax : ∀ x : Int, s._state.head? = some x → x < INT_MAX) :
    ∃ s2 : Segment H, s.raiseState = Outcome.value s2 ∧
      (∀ (x : Int) (xs : List Int), s._state = x :: xs →
        s2._state = (x + 1) :: xs ∧
        s.getInnerState = Outcome.value x ∧
        s2.getInnerState = Outcome.value (x + 1)) ∧
      (∀ i : Nat, i ≠ 0 → s2._state[i]? = s._state[i]?) ∧
      s2._state.length = s._state.length ∧
      s2._autHits = s._autHits ∧
      s2._layer = s._layer ∧
      s2._children = s._children ∧
      s2._parents = s._parents ∧
      (s._state = [] → s2 = s) := by
  obtain ⟨ch, pa, hits, st, ly⟩ := s
  cases st with
  | nil =>
    refine ⟨⟨ch, pa, hits, [], ly⟩, ?_, ?_, ?_, rfl, rfl, rfl, rfl, rfl, fun _ => rfl⟩
    · simp [Segment.raiseState]
    · intro x xs hx
      cases hx
    · intro i _
      rfl
  | cons x xs =>
    have hx : x < INT_MAX := hmax x rfl
    refine ⟨⟨ch, pa, hits, (x + 1) :: xs, ly⟩, ?_, ?_, ?_, rfl, rfl, rfl, rfl, rfl, ?_⟩
    · simp [Segment.raiseState, hx]
    · intro y ys hy
      cases hy
      simp [Segment.getInnerState]
    · intro i hi
      cases i with
      | zero => exact absurd rfl hi
      | succ n => simp
    · intro h
      cases h

/-- C8 (amended), at a segment with the state vector `[0, 5]`. -/
theorem raiseState_frame_witness :
    (∀ x : Int, (⟨[3], [7], [()], [0, 5], 2⟩ : Segment Unit)._state.head? = some x →
      x < INT_MAX) ∧
    ∃ s2 : Segment Unit,
      (⟨[3], [7], [()], [0, 5], 2⟩ : Segment Unit).raiseState = Outcome.value s2 ∧
      s2._state = [1, 5] :=
  have hmax : ∀ x : Int,
      (⟨[3], [7], [()], [0, 5], 2⟩ : Segment Unit)._state.head? = some x →
      x < INT_MAX := by
    intro x hx
    have : x = 0 := by simpa using hx.symm
    subst this
    decide
  ⟨hmax, (raiseState_frame ⟨[3], [7], [()], [0, 5], 2⟩ hmax).elim
    fun s2 h => ⟨s2, h.1, (h.2.1 0 [5] rfl).1⟩⟩

end SegmentProperties

/-! ## Properties of `Crit4_NoZigZag::areCompatible` -/

section CriterionProperties

variable {K : Type} [LinearOrderedField K] [FloorRing K]

/-- C1: `areCompatible(parent, child)` throws `BadSegmentLength` if and only if it is
not the case that parent and child both have exactly 3 hits; a 2-hit/3-hit pair and a
3-hit/2-hit pair throw (no verdict, criterion object unchanged), and a 3-hit/3-hit
pair always gets a verdict. -/
theorem areCompatible_throws_iff (m : LibM K) (self : Crit4_NoZigZag K)
    (parent child : Segment (IHit K)) :
    ((∃ e : BadSegmentLength, (self.areCompatible m parent child).1 = Except.error e) ↔
      ¬ (parent.getHits.length = 3 ∧ child.getHits.length = 3)) ∧
    (parent.getHits.length = 2 ∧ child.getHits.length = 3 →
      ∃ e : BadSegmentLength, self.areCompatible m parent child = (Except.error e, self)) ∧
    (parent.getHits.length = 3 ∧ child.getHits.length = 2 →
      ∃ e : BadSegmentLength, self.areCompatible m parent child = (Except.error e, self)) ∧
    (parent.getHits.length = 3 ∧ child.getHits.length = 3 →
      ∃ verdict : Bool, (self.areCompatible m parent child).1 = Except.ok verdict) := by
  have three : parent.getHits.length = 3 ∧ child.getHits.length = 3 →
      ∃ verdict : Bool, (self.areCompatible m parent child).1 = Except.ok verdict := by
    intro h
    obtain ⟨a, b, c, hp⟩ := list_length_three _ h.1
    obtain ⟨e, f, d, hc⟩ := list_length_three _ h.2
    rw [areCompatible_three m self parent child a b c e f d hp hc]
    exact ⟨_, rfl⟩
  refine ⟨⟨?_, ?_⟩, ?_, ?_, three⟩
  · rintro ⟨e, he⟩ h
    obtain ⟨v, hv⟩ := three h
    rw [hv] at he
    cases he
  · intro h
    obtain ⟨e, he⟩ := areCompatible_not_three m self parent child h
    exact ⟨e, by rw [he]⟩
  · rintro ⟨h2, _⟩
    exact areCompatible_not_three m self parent child (fun h => by omega)
  · rintro ⟨_, h2⟩
    exact areCompatible_not_three m self parent child (fun h => by omega)

/-- C2 (counterexample): with a NaN for the x coordinate of the last hit of child,
on the otherwise straight chain and with the bounds 0 and 32400, `prod` is a NaN and
the call returns `true`, although `prodMin <= prod <= prodMax` does not hold of a
NaN. -/
theorem areCompatible_nan_counterexample :
    ((LibM.withNaN ⟨Real.pi, fun y x => Complex.arg ⟨x, y⟩⟩).areCompatible
        ⟨some 0, some 32400, "Crit4_NoZigZag", "4Hit", false, fun _ => none⟩
        ⟨[], [], [⟨some 0, some 0, some 0⟩, ⟨some 1, some 0, some 0⟩,
          ⟨some 2, some 0, some 0⟩], [0], 0⟩
        ⟨[], [], [⟨some 1, some 0, some 0⟩, ⟨some 2, some 0, some 0⟩,
          ⟨none, some 0, some 0⟩], [0], 0⟩).1 = Except.ok true ∧
    ¬ (leNaN (some 0)
        ((LibM.withNaN ⟨Real.pi, fun y x => Complex.arg ⟨x, y⟩⟩).prod
          ⟨some 0, some 0, some 0⟩ ⟨some 1, some 0, some 0⟩ ⟨some 2, some 0, some 0⟩
          ⟨none, some 0, some 0⟩) ∧
      leNaN
        ((LibM.withNaN ⟨Real.pi, fun y x => Complex.arg ⟨x, y⟩⟩).prod
          ⟨some 0, some 0, some 0⟩ ⟨some 1, some 0, some 0⟩ ⟨some 2, some 0, some 0⟩
          ⟨none, some 0, some 0⟩)
        (some 32400)) := by
  have hprod := withNaN_prod_nan ⟨Real.pi, fun y x => Complex.arg ⟨x, y⟩⟩
    ⟨some 0, some 0, some 0⟩ ⟨some 1, some 0, some 0⟩ ⟨some 2, some 0, some 0⟩
    ⟨none, some 0, some 0⟩ (withNaN_stepPhi_nan_x _ _ _ _)
  constructor
  · rw [FloatArith.areCompatible_three_float
      (LibM.withNaN ⟨Real.pi, fun y x => Complex.arg ⟨x, y⟩⟩)
      ⟨some 0, some 32400, "Crit4_NoZigZag", "4Hit", false, fun _ => none⟩
      ⟨[], [], [⟨some 0, some 0, some 0⟩, ⟨some 1, some 0, some 0⟩,
        ⟨some 2, some 0, some 0⟩], [0], 0⟩
      ⟨[], [], [⟨some 1, some 0, some 0⟩, ⟨some 2, some 0, some 0⟩,
        ⟨none, some 0, some 0⟩], [0], 0⟩
      ⟨some 0, some 0, some 0⟩ ⟨some 1, some 0, some 0⟩ ⟨some 2, some 0, some 0⟩
      ⟨some 1, some 0, some 0⟩ ⟨some 2, some 0, some 0⟩ ⟨none, some 0, some 0⟩ rfl rfl,
      hprod]
    rfl
  · rw [hprod]
    exact not_leNaN_none _ _

/-- C2 (amended): on two 3-hit segments with chain `a`, `b`, `c` (parent) and `d`
(last hit of child), whatever the floating-point operations do, the call returns
`true` if and only if neither `prod < prodMin` nor `prod > prodMax` holds, `prod`
being the `float` that lines 57-78 compute, and `false` otherwise; the verdict does
not depend on `_saveValues` or on what the diagnostics map holds; where `prod` and
the two bounds stand for numbers (no NaN) and `<` compares them as numbers, the
verdict is `true` if and only if `prodMin <= prod <= prodMax`. -/
theorem areCompatible_verdict_iff {F : Type} (A : FloatArith F) (self : Crit4_NoZigZag F)
    (parent child : Segment (IHit F)) (a b c e f d : IHit F)
    (hp : parent.getHits = [a, b, c]) (hc : child.getHits = [e, f, d]) :
    ((A.areCompatible self parent child).1 = Except.ok true ↔
      A.lt (A.prod a b c d) self._prodMin = false ∧
      A.lt self._prodMax (A.prod a b c d) = false) ∧
    ((A.areCompatible self parent child).1 = Except.ok false ↔
      ¬ (A.lt (A.prod a b c d) self._prodMin = false ∧
        A.lt self._prodMax (A.prod a b c d) = false)) ∧
    (∀ (flag : Bool) (values : String → Option F),
      (A.areCompatible { self with _saveValues := flag, _map_name_value := values }
          parent child).1 =
        (A.areCompatible self parent child).1) ∧
    (∀ val : F → Option ℚ, A.ComparesBy val → ∀ x lo hi : ℚ,
      val (A.prod a b c d) = some x → val self._prodMin = some lo →
      val self._prodMax = some hi →
      ((A.areCompatible self parent child).1 = Except.ok true ↔ lo ≤ x ∧ x ≤ hi)) := by
  refine ⟨?_, ?_, ?_, ?_⟩
  · rw [FloatArith.areCompatible_three_float A self parent child a b c e f d hp hc]
    cases A.lt (A.prod a b c d) self._prodMin <;>
      cases A.lt self._prodMax (A.prod a b c d) <;> simp
  · rw [FloatArith.areCompatible_three_float A self parent child a b c e f d hp hc]
    cases A.lt (A.prod a b c d) self._prodMin <;>
      cases A.lt self._prodMax (A.prod a b c d) <;> simp
  · intro flag values
    rw [FloatArith.areCompatible_three_float A self parent child a b c e f d hp hc,
      FloatArith.areCompatible_three_float A _ parent child a b c e f d hp hc]
  · intro val hval x lo hi hx hlo hhi
    rw [FloatArith.areCompatible_three_float A self parent child a b c e f d hp hc,
      hval _ _ _ _ hx hlo, hval _ _ _ _ hhi hx]
    by_cases h1 : x < lo <;> by_cases h2 : hi < x <;>
      simp [h1, h2, not_le.mpr, not_lt.mp]

/-- C2 (amended), at the S-shape chain with exact arithmetic over the real numbers
and the bounds 0 and 32400. -/
theorem areCompatible_verdict_iff_witness :
    ((LibM.exact ⟨Real.pi, fun y x => Complex.arg ⟨x, y⟩⟩).areCompatible
        (Crit4_NoZigZag.new (0 : ℝ) 32400)
        ⟨[], [], [⟨0, 0, 0⟩, ⟨1, 0, 0⟩, ⟨2, 1, 0⟩], [0], 0⟩
        ⟨[], [], [⟨1, 0, 0⟩, ⟨2, 1, 0⟩, ⟨3, 0, 0⟩], [0], 0⟩).1 = Except.ok true ↔
      (LibM.exact ⟨Real.pi, fun y x => Complex.arg ⟨x, y⟩⟩).lt
        ((LibM.exact ⟨Real.pi, fun y x => Complex.arg ⟨x, y⟩⟩).prod
          ⟨0, 0, 0⟩ ⟨1, 0, 0⟩ ⟨2, 1, 0⟩ ⟨3, 0, 0⟩)
        (Crit4_NoZigZag.new (0 : ℝ) 32400)._prodMin = false ∧
      (LibM.exact ⟨Real.pi, fun y x => Complex.arg ⟨x, y⟩⟩).lt
        (Crit4_NoZigZag.new (0 : ℝ) 32400)._prodMax
        ((LibM.exact ⟨Real.pi, fun y x => Complex.arg ⟨x, y⟩⟩).prod
          ⟨0, 0, 0⟩ ⟨1, 0, 0⟩ ⟨2, 1, 0⟩ ⟨3, 0, 0⟩) = false :=
  (areCompatible_verdict_iff (LibM.exact ⟨Real.pi, fun y x => Complex.arg ⟨x, y⟩⟩)
    (Crit4_NoZigZag.new (0 : ℝ) 32400)
    ⟨[], [], [⟨0, 0, 0⟩, ⟨1, 0, 0⟩, ⟨2, 1, 0⟩], [0], 0⟩
    ⟨[], [], [⟨1, 0, 0⟩, ⟨2, 1, 0⟩, ⟨3, 0, 0⟩], [0], 0⟩
    ⟨0, 0, 0⟩ ⟨1, 0, 0⟩ ⟨2, 1, 0⟩ ⟨1, 0, 0⟩ ⟨2, 1, 0⟩ ⟨3, 0, 0⟩ rfl rfl).1

/-- C3: for the straight chain `a=(0,0,0)`, `b=(1,0,0)`, `c=(2,0,0)`, `d=(3,0,0)`
both turning angles are 0, the product is 0, and the call returns `true` whenever
`prodMin <= 0 <= prodMax`. -/
theorem straight_chain_accepted (m : LibM K) (hpi : 0 < m.M_PI) (self : Crit4_NoZigZag K)
    (hmin : self._prodMin ≤ 0) (hmax : 0 ≤ self._prodMax)
    (parent child : Segment (IHit K)) (e f : IHit K)
    (hp : parent.getHits = [⟨0, 0, 0⟩, ⟨1, 0, 0⟩, ⟨2, 0, 0⟩])
    (hc : child.getHits = [e, f, ⟨3, 0, 0⟩]) :
    angleXY1 m ⟨0, 0, 0⟩ ⟨1, 0, 0⟩ ⟨2, 0, 0⟩ = 0 ∧
    angleXY2 m ⟨1, 0, 0⟩ ⟨2, 0, 0⟩ ⟨3, 0, 0⟩ = 0 ∧
    prod m ⟨0, 0, 0⟩ ⟨1, 0, 0⟩ ⟨2, 0, 0⟩ ⟨3, 0, 0⟩ = 0 ∧
    (self.areCompatible m parent child).1 = Except.ok true := by
  have s1 : stepPhi m ⟨0, 0, 0⟩ ⟨1, 0, 0⟩ = stepPhi m ⟨1, 0, 0⟩ ⟨2, 0, 0⟩ := by
    have : (2 : K) - 1 = 1 := by norm_num
    simp [stepPhi, this]
  have s2 : stepPhi m ⟨1, 0, 0⟩ ⟨2, 0, 0⟩ = stepPhi m ⟨2, 0, 0⟩ ⟨3, 0, 0⟩ := by
    have h21 : (2 : K) - 1 = 1 := by norm_num
    have h32 : (3 : K) - 2 = 1 := by norm_num
    simp [stepPhi, h21, h32]
  have a1 := (angles_of_equal_steps m hpi _ _ _ s1).1
  have a2 := (angles_of_equal_steps m hpi _ _ _ s2).2
  have hprod : prod m ⟨0, 0, 0⟩ ⟨1, 0, 0⟩ ⟨2, 0, 0⟩ ⟨3, 0, 0⟩ = 0 := by
    unfold prod
    rw [a1, zero_mul]
  refine ⟨a1, a2, hprod, ?_⟩
  rw [areCompatible_three m self parent child _ _ _ e f _ hp hc, hprod]
  simp [hmin, hmax]

/-- C3, over the real numbers with bounds -1 and 1. -/
theorem straight_chain_accepted_witness :
    0 < Real.pi ∧ (Crit4_NoZigZag.new (-1 : ℝ) 1)._prodMin ≤ 0 ∧
    0 ≤ (Crit4_NoZigZag.new (-1 : ℝ) 1)._prodMax ∧
    ((Crit4_NoZigZag.new (-1 : ℝ) 1).areCompatible
        ⟨Real.pi, fun y x => Complex.arg ⟨x, y⟩⟩
        ⟨[], [], [⟨0, 0, 0⟩, ⟨1, 0, 0⟩, ⟨2, 0, 0⟩], [0], 0⟩
        ⟨[], [], [⟨1, 0, 0⟩, ⟨2, 0, 0⟩, ⟨3, 0, 0⟩], [0], 0⟩).1
      = Except.ok true :=
  have hmin : (Crit4_NoZigZag.new (-1 : ℝ) 1)._prodMin ≤ 0 := by
    norm_num [Crit4_NoZigZag.new]
  have hmax : 0 ≤ (Crit4_NoZigZag.new (-1 : ℝ) 1)._prodMax := by
    norm_num [Crit4_NoZigZag.new]
  ⟨Real.pi_pos, hmin, hmax,
    (straight_chain_accepted ⟨Real.pi, fun y x => Complex.arg ⟨x, y⟩⟩ Real.pi_pos
      (Crit4_NoZigZag.new (-1 : ℝ) 1) hmin hmax
      ⟨[], [], [⟨0, 0, 0⟩, ⟨1, 0, 0⟩, ⟨2, 0, 0⟩], [0], 0⟩
      ⟨[], [], [⟨1, 0, 0⟩, ⟨2, 0, 0⟩, ⟨3, 0, 0⟩], [0], 0⟩
      ⟨1, 0, 0⟩ ⟨2, 0, 0⟩ rfl rfl).2.2.2⟩

/-- C4: for the S-shape chain `a=(0,0,0)`, `b=(1,0,0)`, `c=(2,1,0)`, `d=(3,0,0)`, with
`M_PI` and `atan2` read over the real numbers, the turning angles are -45 and 90
degrees, of opposite sign, the product is -4050, and the call returns `false` for every
configuration with `prodMin >= 0`. -/
theorem sShape_rejected (self : Crit4_NoZigZag ℝ) (hmin : 0 ≤ self._prodMin)
    (parent child : Segment (IHit ℝ)) (e f : IHit ℝ)
    (hp : parent.getHits = [⟨0, 0, 0⟩, ⟨1, 0, 0⟩, ⟨2, 1, 0⟩])
    (hc : child.getHits = [e, f, ⟨3, 0, 0⟩]) :
    angleXY1
        ⟨Real.pi, fun y x => Complex.arg ⟨x, y⟩⟩
        ⟨0, 0, 0⟩ ⟨1, 0, 0⟩ ⟨2, 1, 0⟩ = -45 ∧
    angleXY2
        ⟨Real.pi, fun y x => Complex.arg ⟨x, y⟩⟩
        ⟨1, 0, 0⟩ ⟨2, 1, 0⟩ ⟨3, 0, 0⟩ = 90 ∧
    prod
        ⟨Real.pi, fun y x => Complex.arg ⟨x, y⟩⟩
        ⟨0, 0, 0⟩ ⟨1, 0, 0⟩ ⟨2, 1, 0⟩ ⟨3, 0, 0⟩ = -4050 ∧
    (self.areCompatible
        ⟨Real.pi, fun y x => Complex.arg ⟨x, y⟩⟩
        parent child).1 = Except.ok false := by
  obtain ⟨a1, a2⟩ := sShape_angles ⟨Real.pi, fun y x => Complex.arg ⟨x, y⟩⟩ Real.pi_pos
    arg_one_zero arg_one_one arg_one_neg_one
  have hprod : prod
      ⟨Real.pi, fun y x => Complex.arg ⟨x, y⟩⟩
      ⟨0, 0, 0⟩ ⟨1, 0, 0⟩ ⟨2, 1, 0⟩ ⟨3, 0, 0⟩ = -4050 := by
    unfold prod
    rw [a1, a2]
    norm_num
  refine ⟨a1, a2, hprod, ?_⟩
  rw [areCompatible_three
      ⟨Real.pi, fun y x => Complex.arg ⟨x, y⟩⟩
      self parent child _ _ _ e f _ hp hc, hprod]
  have : ¬ (self._prodMin ≤ -4050) := by
    intro h
    linarith
  simp [this]

/-- C4, with bounds 0 and 32400. -/
theorem sShape_rejected_witness :
    0 ≤ (Crit4_NoZigZag.new (0 : ℝ) 32400)._prodMin ∧
    ((Crit4_NoZigZag.new (0 : ℝ) 32400).areCompatible
        ⟨Real.pi, fun y x => Complex.arg ⟨x, y⟩⟩
        ⟨[], [], [⟨0, 0, 0⟩, ⟨1, 0, 0⟩, ⟨2, 1, 0⟩], [0], 0⟩
        ⟨[], [], [⟨1, 0, 0⟩, ⟨2, 1, 0⟩, ⟨3, 0, 0⟩], [0], 0⟩).1
      = Except.ok false :=
  have hmin : 0 ≤ (Crit4_NoZigZag.new (0 : ℝ) 32400)._prodMin := by
    norm_num [Crit4_NoZigZag.new]
  ⟨hmin, (sShape_rejected (Crit4_NoZigZag.new (0 : ℝ) 32400) hmin
    ⟨[], [], [⟨0, 0, 0⟩, ⟨1, 0, 0⟩, ⟨2, 1, 0⟩], [0], 0⟩
    ⟨[], [], [⟨1, 0, 0⟩, ⟨2, 1, 0⟩, ⟨3, 0, 0⟩], [0], 0⟩
    ⟨1, 0, 0⟩ ⟨2, 1, 0⟩ rfl rfl).2.2.2⟩

end CriterionProperties

end FTrack
